import Mathlib

/-!
Shallow embedding of the ASA_FULL harmonizer worker
(src/unnamed/part_000: the `/harmonize` pipeline of the Cloudflare worker).

The worker is modelled as pure Lean functions. Remote services (the GitHub
content, reference and pull-request endpoints and the OpenAI chat endpoint)
are modelled by a `World` record that fixes the reply of each remote
endpoint; every handler function returns, next to its result, the ordered
list of remote calls it issued, so that temporal claims (call ordering,
absence of mutation) can be stated about the call trace.
-/

set_option maxRecDepth 4000

namespace ASA

/-- Result of the metadata+content fetch issued by `pushFile`:
`size` is the reported file size, `content` the base64-encoded payload
(`none` models a JSON reply without a `content` field). -/
structure FileMeta where
  size : Nat
  content : Option String
deriving Repr, DecidableEq

/-- One file collected by the tree crawler: repository path plus decoded
(and truncated) text content. -/
structure CollectedFile where
  path : String
  content : String
deriving Repr, DecidableEq

/-- One entry of the parsed `files` array of the model reply. -/
structure ProposedChange where
  path : String
  content : String
  rationale : Option String
deriving Repr, DecidableEq

/-- The JSON object parsed out of the model reply text. `files = none`
models a reply whose `files` field is missing or not an array. -/
structure HarmonizerResult where
  summary : Option String
  files : Option (List ProposedChange)
deriving Repr, DecidableEq

/-- Outcome of the OpenAI chat call as seen by `callOpenAIHarmonizer`:
a non-ok HTTP status (which the source turns into a thrown error), a
reply whose message content is not valid JSON (so that the final
`JSON.parse` throws), or a successfully parsed object. -/
inductive OpenAIResult where
  | httpError (status : Nat) (text : String)
  | parseError
  | parsed (result : HarmonizerResult)
deriving Repr, DecidableEq

/-- Body of the create-or-update file write (the PUT payload built in the
apply loop). `sha = none` means the `sha` field is absent from the JSON. -/
structure PutPayload where
  message : String
  content : String
  branch : String
  sha : Option String
deriving Repr, DecidableEq

/-- One entry of the `changedFiles` array of the apply response. -/
structure UpdateResult where
  path : String
  status : String
  commit : Option String
deriving Repr, DecidableEq

/-- One remote network call issued by the pipeline, in issue order. -/
inductive Call where
  | getContents (path : String)
  | openAI
  | getRef (branch : String)
  | createRef (branch : String) (sha : String)
  | getFileOnBranch (path : String) (branch : String)
  | putFile (path : String) (payload : PutPayload)
  | createPR (head : String) (base : String) (body : String)
deriving Repr, DecidableEq

/-- A call mutates the remote repository exactly when it creates a branch
reference, writes a file, or opens a pull request. -/
def Call.isMutating : Call → Bool
  | .createRef _ _ => true
  | .putFile _ _ => true
  | .createPR _ _ _ => true
  | _ => false

/-- Body shapes of the JSON responses produced by the worker. -/
inductive RespBody where
  | healthOk
  | unknownEndpoint
  | onlyPost
  | errorResp (msg : String)
  | noFilesFound (paths : List String)
  | preview (summary : Option String) (files : List ProposedChange)
  | applyResult (branch : String) (prUrl : String) (prNumber : Nat)
      (changedFiles : List UpdateResult)
deriving Repr, DecidableEq

/-- HTTP response: status code plus JSON body model. -/
structure Response where
  status : Nat
  body : RespBody
deriving Repr, DecidableEq

/-- Environment bindings of the worker. A field is `none` when the
variable is unset; an empty string is a set-but-falsy value. -/
structure Env where
  GITHUB_TOKEN : Option String
  OPENAI_API_KEY : Option String
  GITHUB_OWNER : Option String
  GITHUB_REPO : Option String
  BASE_BRANCH : Option String
deriving Repr, DecidableEq

/-- Parsed JSON body of the `/harmonize` request; `none` fields model
absent properties, for which the destructuring defaults apply. -/
structure Body where
  paths : Option (List String)
  apply : Option Bool
  owner : Option String
  repo : Option String
  baseBranch : Option String
  note : Option String
deriving Repr, DecidableEq

/- Remote GitHub content tree as seen by the crawler. A node is the
reply of the contents endpoint for one path: a failed fetch, a JSON
object that is neither an array nor of type file, a single file object
(whose re-fetch by `pushFile` yields the given metadata), or a directory
listing. -/
mutual
/-- Reply of the contents endpoint for one path. -/
inductive GhNode where
  | failed : GhNode
  | other : GhNode
  | single : Option FileMeta → GhNode
  | listing : GhItems → GhNode

inductive GhItems where
  | nil : GhItems
  | cons : GhItem → GhItems → GhItems

inductive GhItem where
  | dirI : String → GhNode → GhItem
  | fileI : String → Option FileMeta → GhItem
  | otherI : GhItem
end

/-- Fixed replies of every remote endpoint, plus the clock value used to
derive the branch name. GitHub errors are `(status, responseText)` pairs
that the client turns into thrown messages. -/
structure World where
  tree : String → GhNode
  openai : OpenAIResult
  baseRef : Except (Nat × String) String
  createRef : Except (Nat × String) Unit
  probe : String → Except (Nat × String) (Option String)
  putFile : String → Except (Nat × String) (Option String)
  createPR : Except (Nat × String) (String × Nat)
  now : Nat

/-- Concatenation of directory listings, used to state where in a
listing a given item sits. -/
def GhItems.append : GhItems → GhItems → GhItems
  | .nil, ys => ys
  | .cons x xs, ys => .cons x (GhItems.append xs ys)

/-- JavaScript falsiness of an optional string: absent or empty. -/
def strFalsy : Option String → Bool
  | none => true
  | some s => s.isEmpty

/-- Models `x || null` for an optional string `x`. -/
def jsOrNull (o : Option String) : Option String :=
  match o with
  | some s => if s.isEmpty then none else some s
  | none => none

/-- Models `x || d` for an optional string `x` and default `d`. -/
def jsOrStr (o : Option String) (d : String) : String :=
  match o with
  | some s => if s.isEmpty then d else s
  | none => d

/-- Models `str.slice(0, n)`. -/
def strSlice (s : String) (n : Nat) : String :=
  String.mk (s.data.take n)

/-! ### Transport encoding

`base64encode(str) = btoa(unescape(encodeURIComponent(str)))` and
`base64decode(str) = decodeURIComponent(escape(atob(str)))`.
The composition of `encodeURIComponent` and `unescape` maps a string to
the byte string of its UTF-8 encoding; `escape` then `decodeURIComponent`
maps a byte string back through UTF-8 decoding, throwing a URIError on
malformed input (modelled by `Option`). -/

/-- UTF-8 encoding of one code point. -/
def utf8EncodeChar (n : Nat) : List Nat :=
  if n < 0x80 then [n]
  else if n < 0x800 then [0xC0 + n / 64, 0x80 + n % 64]
  else if n < 0x10000 then [0xE0 + n / 4096, 0x80 + n / 64 % 64, 0x80 + n % 64]
  else [0xF0 + n / 262144, 0x80 + n / 4096 % 64, 0x80 + n / 64 % 64, 0x80 + n % 64]

/-- UTF-8 byte sequence of a string; models `unescape(encodeURIComponent(s))`
(each byte of the result rendered as one character there). -/
def utf8Bytes (s : String) : List Nat :=
  s.data.flatMap (fun c => utf8EncodeChar c.toNat)

/-- UTF-8 decoding of a byte sequence into code points, rejecting
truncated sequences, bad leading or continuation bytes, overlong forms,
surrogates and out-of-range values; models the strictness of
`decodeURIComponent` on the byte string produced by `escape`. -/
def utf8DecodeBytes : List Nat → Option (List Nat)
  | [] => some []
  | b1 :: rest =>
    if b1 < 0x80 then (utf8DecodeBytes rest).map (b1 :: ·)
    else
      match rest with
      | [] => none
      | b2 :: rest2 =>
        if 0xC2 ≤ b1 ∧ b1 ≤ 0xDF then
          if 0x80 ≤ b2 ∧ b2 ≤ 0xBF then
            (utf8DecodeBytes rest2).map (((b1 - 0xC0) * 64 + (b2 - 0x80)) :: ·)
          else none
        else
          match rest2 with
          | [] => none
          | b3 :: rest3 =>
            if 0xE0 ≤ b1 ∧ b1 ≤ 0xEF then
              if 0x80 ≤ b2 ∧ b2 ≤ 0xBF ∧ 0x80 ≤ b3 ∧ b3 ≤ 0xBF then
                let cp := (b1 - 0xE0) * 4096 + (b2 - 0x80) * 64 + (b3 - 0x80)
                if 0x800 ≤ cp ∧ ¬(0xD800 ≤ cp ∧ cp ≤ 0xDFFF) then
                  (utf8DecodeBytes rest3).map (cp :: ·)
                else none
              else none
            else
              match rest3 with
              | [] => none
              | b4 :: rest4 =>
                if 0xF0 ≤ b1 ∧ b1 ≤ 0xF4 then
                  if 0x80 ≤ b2 ∧ b2 ≤ 0xBF ∧ 0x80 ≤ b3 ∧ b3 ≤ 0xBF ∧
                      0x80 ≤ b4 ∧ b4 ≤ 0xBF then
                    let cp := (b1 - 0xF0) * 262144 + (b2 - 0x80) * 4096 +
                      (b3 - 0x80) * 64 + (b4 - 0x80)
                    if 0x10000 ≤ cp ∧ cp < 0x110000 then
                      (utf8DecodeBytes rest4).map (cp :: ·)
                    else none
                  else none
                else none

/-- Rebuilds a string from decoded code points, failing when a code
point is not a valid scalar value. -/
def codepointsToString (l : List Nat) : Option String :=
  if l.all (fun n => decide (Nat.isValidChar n)) then
    some (String.mk (l.map Char.ofNat))
  else none

/-- The base64 alphabet in index order. -/
def b64Alphabet : List Char :=
  "ABCDEFGHIJKLMNOPQRSTUVWXYZabcdefghijklmnopqrstuvwxyz0123456789+/".data

/-- Character of one sextet value. -/
def b64Char (n : Nat) : Char :=
  b64Alphabet.getD n 'A'

/-- Sextet value of one base64 character, `none` for a non-alphabet
character (such as the padding character). -/
def b64Val (c : Char) : Option Nat :=
  b64Alphabet.findIdx? (fun x => x == c)

/-- Models `btoa`: base64 rendering of a byte sequence. -/
def btoaBytes : List Nat → List Char
  | [] => []
  | [a] => [b64Char (a / 4), b64Char (a % 4 * 16), '=', '=']
  | [a, b] => [b64Char (a / 4), b64Char (a % 4 * 16 + b / 16), b64Char (b % 16 * 4), '=']
  | a :: b :: c :: rest =>
    b64Char (a / 4) :: b64Char (a % 4 * 16 + b / 16) ::
      b64Char (b % 16 * 4 + c / 64) :: b64Char (c % 64) :: btoaBytes rest

/-- Models `atob`: base64 decoding back to bytes, `none` on input that
would make `atob` throw. -/
def atobChars : List Char → Option (List Nat)
  | [] => some []
  | w :: x :: y :: z :: rest => do
    let a ← b64Val w
    let b ← b64Val x
    if y = '=' ∧ z = '=' ∧ rest = [] then
      some [a * 4 + b / 16]
    else do
      let c ← b64Val y
      if z = '=' ∧ rest = [] then
        some [a * 4 + b / 16, b % 16 * 16 + c / 4]
      else do
        let d ← b64Val z
        let tl ← atobChars rest
        some ((a * 4 + b / 16) :: (b % 16 * 16 + c / 4) :: (c % 4 * 64 + d) :: tl)
  | _ => none

/-- Models `base64encode`. -/
def base64encode (str : String) : String :=
  String.mk (btoaBytes (utf8Bytes str))

/-- Models `base64decode`; `none` models the thrown exception on input
that is not valid base64 or does not decode to well-formed UTF-8. -/
def base64decode (str : String) : Option String :=
  match atobChars str.data with
  | none => none
  | some bytes =>
    match utf8DecodeBytes bytes with
    | none => none
    | some cps => codepointsToString cps

/-! ### Tree collection (crawlGitHubDir and pushFile) -/

/-- Models `pushFile`: given the reply of the metadata fetch for `path`
(`none` when the fetch was not ok), appends the collected file to `out`.
A reply with a falsy content field (absent or the empty string) or with
a reported size above 120000 is silently skipped; a content field that
fails to decode throws (the `.error` case), aborting the whole
collection. -/
def pushFile (path : String) (refetch : Option FileMeta)
    (out : List CollectedFile) : Except String (List CollectedFile) × List Call :=
  match refetch with
  | none => (.ok out, [.getContents path])
  | some meta =>
    match meta.content with
    | none => (.ok out, [.getContents path])
    | some raw =>
      if raw.isEmpty then (.ok out, [.getContents path])
      else if meta.size > 120000 then (.ok out, [.getContents path])
      else
        match base64decode raw with
        | none => (.error "URI malformed", [.getContents path])
        | some decoded =>
          (.ok (out ++ [⟨path, strSlice decoded 7000⟩]), [.getContents path])

mutual
/-- Models `crawlGitHubDir`: fetches the contents listing at `path`
(whose reply is `node`), recursing into sub-directories and pushing
files, accumulating into `out`; returns the new accumulator and the
issued calls. -/
def crawlGitHubDir (path : String) (node : GhNode) (out : List CollectedFile) :
    Except String (List CollectedFile) × List Call :=
  match node with
  | .failed => (.ok out, [.getContents path])
  | .other => (.ok out, [.getContents path])
  | .single refetch =>
    match pushFile path refetch out with
    | (r, cs) => (r, .getContents path :: cs)
  | .listing items =>
    match crawlItems items out with
    | (r, cs) => (r, .getContents path :: cs)

/-- Processes the entries of one directory listing in order. -/
def crawlItems (items : GhItems) (out : List CollectedFile) :
    Except String (List CollectedFile) × List Call :=
  match items with
  | .nil => (.ok out, [])
  | .cons (.dirI p node) rest =>
    match crawlGitHubDir p node out with
    | (.error e, cs) => (.error e, cs)
    | (.ok out2, cs) =>
      match crawlItems rest out2 with
      | (r, cs2) => (r, cs ++ cs2)
  | .cons (.fileI p refetch) rest =>
    match pushFile p refetch out with
    | (.error e, cs) => (.error e, cs)
    | (.ok out2, cs) =>
      match crawlItems rest out2 with
      | (r, cs2) => (r, cs ++ cs2)
  | .cons .otherI rest => crawlItems rest out
end

/-- The STEP 1 loop of the handler: crawls every requested path in order
into one shared accumulator. -/
def crawlPaths (w : World) : List String → List CollectedFile →
    Except String (List CollectedFile) × List Call
  | [], acc => (.ok acc, [])
  | p :: rest, acc =>
    match crawlGitHubDir p (w.tree p) acc with
    | (.error e, cs) => (.error e, cs)
    | (.ok acc2, cs) =>
      match crawlPaths w rest acc2 with
      | (r, cs2) => (r, cs ++ cs2)

/-! ### Apply phase -/

/-- The sha captured by the branch-scoped existence probe: the probe
failure is swallowed, leaving no sha. -/
def probedSha (w : World) (path : String) : Option String :=
  match w.probe path with
  | .ok s => s
  | .error _ => none

/-- Truthiness of the captured `existingSha` value. -/
def shaTruthy : Option String → Bool
  | none => false
  | some s => !s.isEmpty

/-- The STEP 3 loop of the apply phase: for each proposed change in
order, probe for an existing blob on the new branch, build the write
payload (attaching the prior sha only when one was found), issue the
write, and record the outcome; a failed write aborts the run. -/
def commitFiles (w : World) (branch : String) :
    List ProposedChange → Except String (List UpdateResult) × List Call
  | [] => (.ok [], [])
  | file :: rest =>
    let encoded := base64encode file.content
    let existingSha := probedSha w file.path
    let payload : PutPayload :=
      { message := s!"ASA Harmonizer Update: {file.path}"
        content := encoded
        branch := branch
        sha := if shaTruthy existingSha then existingSha else none }
    match w.putFile file.path with
    | .error (st, t) =>
      (.error s!"GitHub PUT failed: {st} {t}",
        [.getFileOnBranch file.path branch, .putFile file.path payload])
    | .ok commitSha =>
      let res : UpdateResult :=
        { path := file.path
          status := if shaTruthy existingSha then "updated" else "created"
          commit := commitSha }
      match commitFiles w branch rest with
      | (r, cs) =>
        (r.map (res :: ·),
          .getFileOnBranch file.path branch :: .putFile file.path payload :: cs)

/-- STEP 3 of the handler: resolve the base branch, create the new
branch, commit every file, open the pull request; each step runs only
when the previous one succeeded, and any GitHub failure throws. -/
def applyPhase (w : World) (baseBranch note : String) (summary : Option String)
    (files : List ProposedChange) : Response × List Call :=
  match w.baseRef with
  | .error (st, t) =>
    (⟨500, .errorResp s!"GitHub GET failed: {st} {t}"⟩, [.getRef baseBranch])
  | .ok baseSha =>
    let newBranch := s!"asa-harmonizer-{w.now}"
    match w.createRef with
    | .error (st, t) =>
      (⟨500, .errorResp s!"GitHub POST failed: {st} {t}"⟩,
        [.getRef baseBranch, .createRef newBranch baseSha])
    | .ok _ =>
      match commitFiles w newBranch files with
      | (.error msg, fcs) =>
        (⟨500, .errorResp msg⟩,
          .getRef baseBranch :: .createRef newBranch baseSha :: fcs)
      | (.ok results, fcs) =>
        let prBody := jsOrStr summary note
        match w.createPR with
        | .error (st, t) =>
          (⟨500, .errorResp s!"GitHub POST failed: {st} {t}"⟩,
            .getRef baseBranch :: .createRef newBranch baseSha ::
              (fcs ++ [.createPR newBranch baseBranch prBody]))
        | .ok (url, num) =>
          (⟨200, .applyResult newBranch url num results⟩,
            .getRef baseBranch :: .createRef newBranch baseSha ::
              (fcs ++ [.createPR newBranch baseBranch prBody]))

/-! ### The harmonize pipeline -/

/-- Owner after destructuring defaults: the request value, else the
environment value. -/
def resolveOwner (env : Env) (body : Body) : Option String :=
  match body.owner with
  | some o => some o
  | none => env.GITHUB_OWNER

/-- Repo after destructuring defaults. -/
def resolveRepo (env : Env) (body : Body) : Option String :=
  match body.repo with
  | some r => some r
  | none => env.GITHUB_REPO

/-- Base branch after destructuring defaults:
`baseBranch = env.BASE_BRANCH || "main"` when the request omits it. -/
def resolveBaseBranch (env : Env) (body : Body) : String :=
  match body.baseBranch with
  | some b => b
  | none => jsOrStr env.BASE_BRANCH "main"

/-- Note after destructuring defaults. -/
def resolveNote (body : Body) : String :=
  body.note.getD "ASA MATRIX harmonizer run"

/-- Paths after destructuring defaults. -/
def resolvePaths (body : Body) : List String :=
  body.paths.getD []

/-- Apply flag after destructuring defaults. -/
def resolveApply (body : Body) : Bool :=
  body.apply.getD false

/-- Stand-in message for the SyntaxError thrown by `JSON.parse` on a
model reply that is not valid JSON. -/
def jsonSyntaxErrorMsg : String := "Unexpected token in JSON"

/-- The body of the `/harmonize` POST handler, try/catch included:
validation, collection, the model call, then preview or apply; every
thrown error is caught and surfaced as a 500 response. Returns the
response together with the ordered trace of remote calls issued. -/
def runPipeline (env : Env) (body : Body) (w : World) : Response × List Call :=
  let owner := resolveOwner env body
  let repo := resolveRepo env body
  let baseBranch := resolveBaseBranch env body
  let note := resolveNote body
  let paths := resolvePaths body
  if strFalsy env.GITHUB_TOKEN then (⟨500, .errorResp "Missing GITHUB_TOKEN"⟩, [])
  else if strFalsy env.OPENAI_API_KEY then
    (⟨500, .errorResp "Missing OPENAI_API_KEY"⟩, [])
  else if strFalsy owner || strFalsy repo then
    (⟨500, .errorResp "Missing repo owner/name"⟩, [])
  else if paths.isEmpty then (⟨500, .errorResp "No paths provided"⟩, [])
  else
    match crawlPaths w paths [] with
    | (.error e, ccalls) => (⟨500, .errorResp e⟩, ccalls)
    | (.ok collected, ccalls) =>
      if collected.isEmpty then (⟨400, .noFilesFound paths⟩, ccalls)
      else
        let preCalls := ccalls ++ [.openAI]
        match w.openai with
        | .httpError st t =>
          (⟨500, .errorResp s!"OpenAI Error: {st} {t}"⟩, preCalls)
        | .parseError => (⟨500, .errorResp jsonSyntaxErrorMsg⟩, preCalls)
        | .parsed hr =>
          match hr.files with
          | none => (⟨500, .errorResp "Harmonizer returned no files"⟩, preCalls)
          | some [] => (⟨500, .errorResp "Harmonizer returned no files"⟩, preCalls)
          | some (f :: fs) =>
            if !resolveApply body then
              (⟨200, .preview (jsOrNull hr.summary) (f :: fs)⟩, preCalls)
            else
              match applyPhase w baseBranch note hr.summary (f :: fs) with
              | (resp, acalls) => (resp, preCalls ++ acalls)

/-- The outer `fetch` handler: routing for `/health`, unknown endpoints
and non-POST methods, JSON body parsing (`none` models a body that does
not parse, whose thrown error is caught), then the pipeline. -/
def fetchHandler (env : Env) (method pathname : String) (body : Option Body)
    (w : World) : Response × List Call :=
  if pathname = "/health" then (⟨200, .healthOk⟩, [])
  else if pathname ≠ "/harmonize" then (⟨404, .unknownEndpoint⟩, [])
  else if method ≠ "POST" then (⟨405, .onlyPost⟩, [])
  else
    match body with
    | none => (⟨500, .errorResp "Invalid JSON body"⟩, [])
    | some b => runPipeline env b w

/-! ### Round-trip lemmas for the transport encoding -/

/-- Every sextet below 64 maps to an alphabet character and back. -/
theorem b64_table (n : Nat) (h : n < 64) :
    b64Val (b64Char n) = some n ∧ b64Char n ≠ '=' := by
  revert h
  revert n
  decide

/-- Base64 decoding inverts base64 rendering on byte sequences. -/
theorem atob_btoa (bs : List Nat) (h : ∀ x ∈ bs, x < 256) :
    atobChars (btoaBytes bs) = some bs := by
  match bs with
  | [] => rfl
  | [a] =>
    have ha : a < 256 := h a (by simp)
    have h1 := b64_table (a / 4) (by omega)
    have h2 := b64_table (a % 4 * 16) (by omega)
    simp [btoaBytes, atobChars, h1.1, h2.1]
    omega
  | [a, b] =>
    have ha : a < 256 := h a (by simp)
    have hb : b < 256 := h b (by simp)
    have h1 := b64_table (a / 4) (by omega)
    have h2 := b64_table (a % 4 * 16 + b / 16) (by omega)
    have h3 := b64_table (b % 16 * 4) (by omega)
    simp [btoaBytes, atobChars, h1.1, h2.1, h3.1, h3.2]
    omega
  | a :: b :: c :: rest =>
    have ha : a < 256 := h a (by simp)
    have hb : b < 256 := h b (by simp)
    have hc : c < 256 := h c (by simp)
    have h1 := b64_table (a / 4) (by omega)
    have h2 := b64_table (a % 4 * 16 + b / 16) (by omega)
    have h3 := b64_table (b % 16 * 4 + c / 64) (by omega)
    have h4 := b64_table (c % 64) (by omega)
    have ih := atob_btoa rest (fun x hx => h x (by simp [hx]))
    simp [btoaBytes, atobChars, h1.1, h2.1, h3.1, h3.2, h4.1, h4.2, ih]
    omega

/-- UTF-8 encoding of an in-range code point produces bytes. -/
theorem utf8EncodeChar_lt {n : Nat} (h : n < 0x110000) :
    ∀ b ∈ utf8EncodeChar n, b < 256 := by
  intro b hb
  unfold utf8EncodeChar at hb
  split_ifs at hb <;> simp at hb <;> omega

/-- One-byte sequences decode to themselves followed by the rest. -/
theorem utf8DecodeBytes_ascii {b : Nat} (h : b < 0x80) (rest : List Nat) :
    utf8DecodeBytes (b :: rest) = (utf8DecodeBytes rest).map (b :: ·) := by
  conv_lhs => unfold utf8DecodeBytes
  rw [if_pos h]

/-- Two-byte encodings decode back to their code point. -/
theorem utf8DecodeBytes_two {n : Nat} (h1 : 0x80 ≤ n) (h2 : n < 0x800) (rest : List Nat) :
    utf8DecodeBytes ((0xC0 + n / 64) :: (0x80 + n % 64) :: rest) =
      (utf8DecodeBytes rest).map (n :: ·) := by
  conv_lhs => unfold utf8DecodeBytes
  rw [if_neg (by omega)]
  simp only []
  rw [if_pos (by omega), if_pos (by omega)]
  have harith : (0xC0 + n / 64 - 0xC0) * 64 + (0x80 + n % 64 - 0x80) = n := by omega
  rw [harith]

/-- Three-byte encodings of non-surrogates decode back. -/
theorem utf8DecodeBytes_three {n : Nat} (h1 : 0x800 ≤ n) (h2 : n < 0x10000)
    (hsur : ¬(0xD800 ≤ n ∧ n ≤ 0xDFFF)) (rest : List Nat) :
    utf8DecodeBytes ((0xE0 + n / 4096) :: (0x80 + n / 64 % 64) :: (0x80 + n % 64) :: rest) =
      (utf8DecodeBytes rest).map (n :: ·) := by
  conv_lhs => unfold utf8DecodeBytes
  rw [if_neg (by omega)]
  simp only []
  rw [if_neg (by omega), if_pos (by omega), if_pos (by omega)]
  have harith : (0xE0 + n / 4096 - 0xE0) * 4096 + (0x80 + n / 64 % 64 - 0x80) * 64 +
      (0x80 + n % 64 - 0x80) = n := by omega
  rw [harith, if_pos (by omega)]

/-- Four-byte encodings decode back. -/
theorem utf8DecodeBytes_four {n : Nat} (h1 : 0x10000 ≤ n) (h2 : n < 0x110000)
    (rest : List Nat) :
    utf8DecodeBytes ((0xF0 + n / 262144) :: (0x80 + n / 4096 % 64) ::
      (0x80 + n / 64 % 64) :: (0x80 + n % 64) :: rest) =
      (utf8DecodeBytes rest).map (n :: ·) := by
  conv_lhs => unfold utf8DecodeBytes
  rw [if_neg (by omega)]
  simp only []
  rw [if_neg (by omega), if_neg (by omega), if_pos (by omega), if_pos (by omega)]
  have harith : (0xF0 + n / 262144 - 0xF0) * 262144 + (0x80 + n / 4096 % 64 - 0x80) * 4096 +
      (0x80 + n / 64 % 64 - 0x80) * 64 + (0x80 + n % 64 - 0x80) = n := by omega
  rw [harith, if_pos (by omega)]

/-- Decoding after encoding one valid scalar value peels off exactly
that code point. -/
theorem utf8_decode_encode {n : Nat} (h : Nat.isValidChar n) (rest : List Nat) :
    utf8DecodeBytes (utf8EncodeChar n ++ rest) = (utf8DecodeBytes rest).map (n :: ·) := by
  by_cases h1 : n < 0x80
  · have henc : utf8EncodeChar n = [n] := by
      unfold utf8EncodeChar
      rw [if_pos h1]
    rw [henc, List.cons_append, List.nil_append]
    exact utf8DecodeBytes_ascii h1 rest
  · by_cases h2 : n < 0x800
    · have henc : utf8EncodeChar n = [0xC0 + n / 64, 0x80 + n % 64] := by
        unfold utf8EncodeChar
        rw [if_neg h1, if_pos h2]
      rw [henc, List.cons_append, List.cons_append, List.nil_append]
      exact utf8DecodeBytes_two (by omega) h2 rest
    · by_cases h3 : n < 0x10000
      · have hsur : ¬(0xD800 ≤ n ∧ n ≤ 0xDFFF) := by
          rcases h with h | ⟨ha, hb⟩ <;> omega
        have henc : utf8EncodeChar n = [0xE0 + n / 4096, 0x80 + n / 64 % 64, 0x80 + n % 64] := by
          unfold utf8EncodeChar
          rw [if_neg h1, if_neg h2, if_pos h3]
        rw [henc, List.cons_append, List.cons_append, List.cons_append, List.nil_append]
        exact utf8DecodeBytes_three (by omega) h3 hsur rest
      · have h4 : n < 0x110000 := by
          rcases h with h | ⟨ha, hb⟩ <;> omega
        have henc : utf8EncodeChar n =
            [0xF0 + n / 262144, 0x80 + n / 4096 % 64, 0x80 + n / 64 % 64, 0x80 + n % 64] := by
          unfold utf8EncodeChar
          rw [if_neg h1, if_neg h2, if_neg h3]
        rw [henc, List.cons_append, List.cons_append, List.cons_append, List.cons_append,
          List.nil_append]
        exact utf8DecodeBytes_four (by omega) h4 rest

/-- UTF-8 decoding inverts the byte rendering of a whole string. -/
theorem utf8DecodeBytes_utf8Bytes (s : String) :
    utf8DecodeBytes (utf8Bytes s) = some (s.data.map Char.toNat) := by
  unfold utf8Bytes
  induction s.data with
  | nil => simp [utf8DecodeBytes]
  | cons c cs ih =>
    simp only [List.flatMap_cons, List.map_cons]
    rw [utf8_decode_encode (n := c.toNat) c.valid, ih]
    rfl

/-- Rebuilding a string from the code points of its characters yields
the string itself. -/
theorem codepointsToString_map (s : String) :
    codepointsToString (s.data.map Char.toNat) = some s := by
  have hcond : (s.data.map Char.toNat).all (fun n => decide (Nat.isValidChar n)) = true := by
    simp only [List.all_eq_true, List.mem_map]
    rintro x ⟨c, hc, rfl⟩
    exact decide_eq_true c.valid
  unfold codepointsToString
  rw [if_pos hcond]
  congr 1
  rw [List.map_map]
  have hmap : (Char.ofNat ∘ Char.toNat) = id := by
    funext c
    exact Char.ofNat_toNat c
  rw [hmap, List.map_id]

/-- All UTF-8 bytes of a string are bytes. -/
theorem utf8Bytes_lt (s : String) : ∀ b ∈ utf8Bytes s, b < 256 := by
  intro b hb
  unfold utf8Bytes at hb
  simp only [List.mem_flatMap] at hb
  obtain ⟨c, hc, hbc⟩ := hb
  have hv : c.toNat < 0x110000 := by
    show c.val.toNat < 0x110000
    rcases c.valid with h | ⟨ha, hb2⟩ <;> omega
  exact utf8EncodeChar_lt hv b hbc

/-! ### Collector lemmas -/

/-- Collected content is the string built from the first characters of
the decoded content. -/
theorem strSlice_data (s : String) (n : Nat) : (strSlice s n).data = s.data.take n := rfl

/-- C7: a collected file (non-falsy content field, size within bound)
whose decoded content exceeds the truncation bound of 7000 is stored
truncated to exactly the first 7000 characters; decoded content at or
below the bound is stored unchanged. -/
theorem collector_truncation (path : String) (m : FileMeta) (raw dec : String)
    (out : List CollectedFile)
    (hc : m.content = some raw) (hraw : raw.isEmpty = false)
    (hsize : ¬ 120000 < m.size)
    (hdec : base64decode raw = some dec) :
    pushFile path (some m) out =
      (.ok (out ++ [⟨path, strSlice dec 7000⟩]), [.getContents path]) ∧
    (strSlice dec 7000).data = dec.data.take 7000 ∧
    (7000 < dec.length → (strSlice dec 7000).length = 7000) ∧
    (dec.length ≤ 7000 → strSlice dec 7000 = dec) := by
  refine ⟨?_, rfl, ?_, ?_⟩
  · simp [pushFile, hc, hraw, hsize, hdec]
  · intro hlong
    show (dec.data.take 7000).length = 7000
    rw [List.length_take]
    exact Nat.min_eq_left (Nat.le_of_lt hlong)
  · intro hshort
    show String.mk (dec.data.take 7000) = dec
    rw [List.take_of_length_le hshort]

/-- Witness for C7 at a concrete oversized content and a concrete short
content. -/
theorem collector_truncation_witness :
    pushFile "f" (some ⟨2, some "aGk="⟩) [] =
      (.ok [⟨"f", strSlice "hi" 7000⟩], [.getContents "f"]) ∧
    strSlice "hi" 7000 = "hi" := by
  have h := collector_truncation "f" ⟨2, some "aGk="⟩ "aGk=" "hi" []
    (by rfl) (by rfl) (by decide) (by rfl)
  exact ⟨h.1, h.2.2.2 (by decide)⟩

/-- The calls of `pushFile` do not depend on the accumulator, and its
result extends the accumulator. -/
theorem pushFile_acc (path : String) (refetch : Option FileMeta)
    (out : List CollectedFile) :
    pushFile path refetch out =
      ((pushFile path refetch []).1.map (out ++ ·), (pushFile path refetch []).2) := by
  match refetch with
  | none => simp [pushFile, Except.map]
  | some meta =>
    match hc : meta.content with
    | none => simp [pushFile, hc, Except.map]
    | some raw =>
      by_cases he : raw.isEmpty
      · simp [pushFile, hc, he, Except.map]
      · by_cases hs : 120000 < meta.size
        · simp [pushFile, hc, he, hs, Except.map]
        · match hd : base64decode raw with
          | none => simp [pushFile, hc, he, hs, hd, Except.map]
          | some dec => simp [pushFile, hc, he, hs, hd, Except.map]

mutual
/-- The calls of the crawler do not depend on the accumulator, and its
result extends the accumulator. -/
theorem crawlGitHubDir_acc (path : String) (node : GhNode) (out : List CollectedFile) :
    crawlGitHubDir path node out =
      ((crawlGitHubDir path node []).1.map (out ++ ·), (crawlGitHubDir path node []).2) := by
  match node with
  | .failed => simp [crawlGitHubDir, Except.map]
  | .other => simp [crawlGitHubDir, Except.map]
  | .single refetch =>
    simp only [crawlGitHubDir]
    rw [pushFile_acc path refetch out]
  | .listing items =>
    simp only [crawlGitHubDir]
    rw [crawlItems_acc items out]

/-- The calls of the listing loop do not depend on the accumulator, and
its result extends the accumulator. -/
theorem crawlItems_acc (items : GhItems) (out : List CollectedFile) :
    crawlItems items out =
      ((crawlItems items []).1.map (out ++ ·), (crawlItems items []).2) := by
  match items with
  | .nil => simp [crawlItems, Except.map]
  | .cons (.dirI p node) rest =>
    simp only [crawlItems]
    rw [crawlGitHubDir_acc p node out]
    rcases hp : crawlGitHubDir p node [] with ⟨r0, cs0⟩
    cases r0 with
    | error e => simp [Except.map]
    | ok v =>
      simp only [Except.map, List.nil_append]
      rw [crawlItems_acc rest (out ++ v), crawlItems_acc rest v]
      rcases hr : crawlItems rest [] with ⟨r1, cs1⟩
      cases r1 <;> simp [Except.map, List.append_assoc]
  | .cons (.fileI p refetch) rest =>
    simp only [crawlItems]
    rw [pushFile_acc p refetch out]
    rcases hp : pushFile p refetch [] with ⟨r0, cs0⟩
    cases r0 with
    | error e => simp [Except.map]
    | ok v =>
      simp only [Except.map, List.nil_append]
      rw [crawlItems_acc rest (out ++ v), crawlItems_acc rest v]
      rcases hr : crawlItems rest [] with ⟨r1, cs1⟩
      cases r1 <;> simp [Except.map, List.append_assoc]
  | .cons .otherI rest =>
    simp only [crawlItems]
    exact crawlItems_acc rest out
end

/-- Splitting a listing splits the collection run. -/
theorem crawlItems_split (xs ys : GhItems) (out : List CollectedFile) :
    crawlItems (xs.append ys) out =
      (match crawlItems xs out with
       | (.error e, cs) => (.error e, cs)
       | (.ok out2, cs) =>
         match crawlItems ys out2 with
         | (r, cs2) => (r, cs ++ cs2)) := by
  match xs with
  | .nil =>
    rcases h : crawlItems ys out with ⟨r, cs⟩
    simp [GhItems.append, crawlItems, h]
  | .cons (.dirI p node) rest =>
    simp only [GhItems.append, crawlItems]
    rcases hp : crawlGitHubDir p node out with ⟨r0, cs0⟩
    cases r0 with
    | error e => simp
    | ok v =>
      simp only []
      rw [crawlItems_split rest ys v]
      rcases hr : crawlItems rest v with ⟨r1, cs1⟩
      cases r1 with
      | error e => simp
      | ok v2 =>
        simp only []
        rcases hy : crawlItems ys v2 with ⟨r2, cs2⟩
        simp [List.append_assoc]
  | .cons (.fileI p refetch) rest =>
    simp only [GhItems.append, crawlItems]
    rcases hp : pushFile p refetch out with ⟨r0, cs0⟩
    cases r0 with
    | error e => simp
    | ok v =>
      simp only []
      rw [crawlItems_split rest ys v]
      rcases hr : crawlItems rest v with ⟨r1, cs1⟩
      cases r1 with
      | error e => simp
      | ok v2 =>
        simp only []
        rcases hy : crawlItems ys v2 with ⟨r2, cs2⟩
        simp [List.append_assoc]
  | .cons .otherI rest =>
    simp only [GhItems.append, crawlItems]
    exact crawlItems_split rest ys out

/-- C8: in any traversed listing, a file item whose reported size
exceeds the 120000 threshold contributes nothing to the collected set
(it is silently skipped, not an error), while the collected set consists
exactly of the contributions of the items before and after it, in
order. -/
theorem collector_size_bound (qpath p : String) (m : FileMeta) (pre post : GhItems)
    (hm : 120000 < m.size)
    (rpre rpost : List CollectedFile) (cs1 cs2 : List Call)
    (hpre : crawlItems pre [] = (.ok rpre, cs1))
    (hpost : crawlItems post [] = (.ok rpost, cs2)) :
    (crawlGitHubDir qpath
        (.listing (pre.append (.cons (.fileI p (some m)) post))) []).1 =
      .ok (rpre ++ rpost) := by
  have hskip : ∀ acc, pushFile p (some m) acc = (.ok acc, [.getContents p]) := by
    intro acc
    match hc : m.content with
    | none => simp [pushFile, hc]
    | some raw =>
      by_cases he : raw.isEmpty
      · simp [pushFile, hc, he]
      · simp [pushFile, hc, he, hm]
  simp only [crawlGitHubDir]
  rw [crawlItems_split pre (.cons (.fileI p (some m)) post) [], hpre]
  simp only [crawlItems, hskip rpre]
  rw [crawlItems_acc post rpre, hpost]
  simp [Except.map]

/-- Witness for C8: a listing with a small file, an oversized file and
another small file collects exactly the two small files. -/
theorem collector_size_bound_witness :
    (crawlGitHubDir "root"
        (.listing ((GhItems.cons (.fileI "a" (some ⟨2, some "aGk="⟩)) .nil).append
          (.cons (.fileI "big" (some ⟨200000, some "aGk="⟩))
            (.cons (.fileI "b" (some ⟨2, some "aGk="⟩)) .nil)))) []).1 =
      .ok [⟨"a", "hi"⟩, ⟨"b", "hi"⟩] := by
  have h := collector_size_bound "root" "big" ⟨200000, some "aGk="⟩
    (GhItems.cons (.fileI "a" (some ⟨2, some "aGk="⟩)) .nil)
    (GhItems.cons (.fileI "b" (some ⟨2, some "aGk="⟩)) .nil)
    (by decide)
    [⟨"a", "hi"⟩] [⟨"b", "hi"⟩]
    [.getContents "a"] [.getContents "b"]
    (by rfl) (by rfl)
  exact h

/-- The file fetch of `pushFile` is its only call. -/
theorem pushFile_calls (path : String) (refetch : Option FileMeta)
    (out : List CollectedFile) :
    (pushFile path refetch out).2 = [.getContents path] := by
  match refetch with
  | none => simp [pushFile]
  | some meta =>
    match hc : meta.content with
    | none => simp [pushFile, hc]
    | some raw =>
      by_cases he : raw.isEmpty
      · simp [pushFile, hc, he]
      · by_cases hs : 120000 < meta.size
        · simp [pushFile, hc, he, hs]
        · match hd : base64decode raw with
          | none => simp [pushFile, hc, he, hs, hd]
          | some dec => simp [pushFile, hc, he, hs, hd]

mutual
/-- Every remote call of the crawler is a read of the contents
endpoint. -/
theorem crawlGitHubDir_calls (path : String) (node : GhNode) (out : List CollectedFile) :
    ∀ c ∈ (crawlGitHubDir path node out).2, ∃ p, c = .getContents p := by
  match node with
  | .failed => simp [crawlGitHubDir]
  | .other => simp [crawlGitHubDir]
  | .single refetch =>
    have h0 := pushFile_calls path refetch out
    simp only [crawlGitHubDir]
    rcases hp : pushFile path refetch out with ⟨r0, cs0⟩
    rw [hp] at h0
    simp only [] at h0
    subst h0
    simp
  | .listing items =>
    have h0 := crawlItems_calls items out
    simp only [crawlGitHubDir]
    rcases hp : crawlItems items out with ⟨r0, cs0⟩
    rw [hp] at h0
    simp only [] at h0
    simp only [List.mem_cons]
    rintro c (rfl | hc)
    · exact ⟨path, rfl⟩
    · exact h0 c hc

/-- Every remote call of the listing loop is a read of the contents
endpoint. -/
theorem crawlItems_calls (items : GhItems) (out : List CollectedFile) :
    ∀ c ∈ (crawlItems items out).2, ∃ p, c = .getContents p := by
  match items with
  | .nil => simp [crawlItems]
  | .cons (.dirI p node) rest =>
    have h0 := crawlGitHubDir_calls p node out
    simp only [crawlItems]
    rcases hp : crawlGitHubDir p node out with ⟨r0, cs0⟩
    rw [hp] at h0
    simp only [] at h0
    cases r0 with
    | error e => exact h0
    | ok v =>
      have h1 := crawlItems_calls rest v
      simp only [List.mem_append]
      rintro c (hc | hc)
      · exact h0 c hc
      · exact h1 c hc
  | .cons (.fileI p refetch) rest =>
    have h0 := pushFile_calls p refetch out
    simp only [crawlItems]
    rcases hp : pushFile p refetch out with ⟨r0, cs0⟩
    rw [hp] at h0
    simp only [] at h0
    subst h0
    cases r0 with
    | error e => simp
    | ok v =>
      have h1 := crawlItems_calls rest v
      simp only [List.mem_append]
      rintro c (hc | hc)
      · simp at hc
        exact ⟨p, hc⟩
      · exact h1 c hc
  | .cons .otherI rest =>
    simp only [crawlItems]
    exact crawlItems_calls rest out
end

/-- Every remote call of the STEP 1 collection loop is a read of the
contents endpoint. -/
theorem crawlPaths_calls (w : World) (paths : List String) (acc : List CollectedFile) :
    ∀ c ∈ (crawlPaths w paths acc).2, ∃ p, c = .getContents p := by
  match paths with
  | [] => simp [crawlPaths]
  | p :: rest =>
    have h0 := crawlGitHubDir_calls p (w.tree p) acc
    simp only [crawlPaths]
    rcases hp : crawlGitHubDir p (w.tree p) acc with ⟨r0, cs0⟩
    rw [hp] at h0
    simp only [] at h0
    cases r0 with
    | error e => exact h0
    | ok acc2 =>
      have h1 := crawlPaths_calls w rest acc2
      simp only [List.mem_append]
      rintro c (hc | hc)
      · exact h0 c hc
      · exact h1 c hc

/-- A contents read is not a mutating call. -/
theorem getContents_not_mutating (p : String) : (Call.getContents p).isMutating = false := rfl

/-! ### Pipeline theorems -/

/-- C3: whenever a required credential or identifier is missing or
falsy, or `paths` is empty, the pipeline fails with one of the four
validation error messages as a 500 response and issues zero network
calls. -/
theorem pipeline_validation_no_calls (env : Env) (body : Body) (w : World)
    (h : strFalsy env.GITHUB_TOKEN = true ∨ strFalsy env.OPENAI_API_KEY = true ∨
      (strFalsy (resolveOwner env body) || strFalsy (resolveRepo env body)) = true ∨
      (resolvePaths body).isEmpty = true) :
    ∃ msg, (msg = "Missing GITHUB_TOKEN" ∨ msg = "Missing OPENAI_API_KEY" ∨
        msg = "Missing repo owner/name" ∨ msg = "No paths provided") ∧
      runPipeline env body w = (⟨500, .errorResp msg⟩, []) := by
  by_cases h1 : strFalsy env.GITHUB_TOKEN = true
  · exact ⟨"Missing GITHUB_TOKEN", Or.inl rfl, by simp [runPipeline, h1]⟩
  · by_cases h2 : strFalsy env.OPENAI_API_KEY = true
    · exact ⟨"Missing OPENAI_API_KEY", Or.inr (Or.inl rfl), by simp [runPipeline, h1, h2]⟩
    · by_cases h3 : (strFalsy (resolveOwner env body) || strFalsy (resolveRepo env body)) = true
      · exact ⟨"Missing repo owner/name", Or.inr (Or.inr (Or.inl rfl)),
          by simp [runPipeline, h1, h2, h3]⟩
      · have h4 : (resolvePaths body).isEmpty = true := by tauto
        exact ⟨"No paths provided", Or.inr (Or.inr (Or.inr rfl)),
          by simp [runPipeline, h1, h2, h3, h4]⟩

/-- Witness for C3: a request with an unset source-control token fails
validation with no calls issued. -/
theorem pipeline_validation_no_calls_witness :
    ∃ msg, (msg = "Missing GITHUB_TOKEN" ∨ msg = "Missing OPENAI_API_KEY" ∨
        msg = "Missing repo owner/name" ∨ msg = "No paths provided") ∧
      runPipeline ⟨none, some "k", some "o", some "r", none⟩
        ⟨some ["src"], some false, none, none, none, none⟩
        ⟨fun _ => .failed, .parseError, .error (500, "x"), .error (500, "x"),
          fun _ => .error (404, "x"), fun _ => .error (500, "x"),
          .error (500, "x"), 0⟩ =
        (⟨500, .errorResp msg⟩, []) :=
  pipeline_validation_no_calls _ _ _ (Or.inl rfl)

/-- C6: when validation passes but the paths resolve to zero collected
files, the pipeline fails with the no-files-found 400 response, the
model service is never called, and no mutating call is issued. -/
theorem pipeline_no_files (env : Env) (body : Body) (w : World) (ccalls : List Call)
    (h1 : strFalsy env.GITHUB_TOKEN = false)
    (h2 : strFalsy env.OPENAI_API_KEY = false)
    (h3 : (strFalsy (resolveOwner env body) || strFalsy (resolveRepo env body)) = false)
    (h4 : (resolvePaths body).isEmpty = false)
    (hcrawl : crawlPaths w (resolvePaths body) [] = (.ok [], ccalls)) :
    runPipeline env body w = (⟨400, .noFilesFound (resolvePaths body)⟩, ccalls) ∧
    Call.openAI ∉ ccalls ∧
    ∀ c ∈ ccalls, c.isMutating = false := by
  have hcc := crawlPaths_calls w (resolvePaths body) []
  rw [hcrawl] at hcc
  simp only [] at hcc
  refine ⟨?_, ?_, ?_⟩
  · simp [runPipeline, h1, h2, h3, h4, hcrawl]
  · intro hmem
    obtain ⟨p, hp⟩ := hcc _ hmem
    exact Call.noConfusion hp
  · intro c hmem
    obtain ⟨p, hp⟩ := hcc c hmem
    rw [hp]
    rfl

/-- Witness for C6 at a world whose tree yields no files. -/
theorem pipeline_no_files_witness :
    runPipeline ⟨some "t", some "k", some "o", some "r", none⟩
        ⟨some ["src"], some true, none, none, none, none⟩
        ⟨fun _ => .failed, .parseError, .error (500, "x"), .error (500, "x"),
          fun _ => .error (404, "x"), fun _ => .error (500, "x"),
          .error (500, "x"), 0⟩ =
      (⟨400, .noFilesFound ["src"]⟩, [.getContents "src"]) :=
  (pipeline_no_files ⟨some "t", some "k", some "o", some "r", none⟩
    ⟨some ["src"], some true, none, none, none, none⟩
    ⟨fun _ => .failed, .parseError, .error (500, "x"), .error (500, "x"),
      fun _ => .error (404, "x"), fun _ => .error (500, "x"),
      .error (500, "x"), 0⟩
    [.getContents "src"] rfl rfl rfl rfl rfl).1

/-- C1: when the resolved apply flag is false and the pipeline reaches
the rewrite step and obtains a non-empty rewrite result, the response is
the 200 preview outcome carrying the summary and proposed files, and no
mutating remote call is issued. -/
theorem pipeline_preview_no_mutation (env : Env) (body : Body) (w : World)
    (collected : List CollectedFile) (ccalls : List Call)
    (hr : HarmonizerResult) (f : ProposedChange) (fs : List ProposedChange)
    (h1 : strFalsy env.GITHUB_TOKEN = false)
    (h2 : strFalsy env.OPENAI_API_KEY = false)
    (h3 : (strFalsy (resolveOwner env body) || strFalsy (resolveRepo env body)) = false)
    (h4 : (resolvePaths body).isEmpty = false)
    (hcrawl : crawlPaths w (resolvePaths body) [] = (.ok collected, ccalls))
    (hne : collected.isEmpty = false)
    (hopenai : w.openai = .parsed hr)
    (hfiles : hr.files = some (f :: fs))
    (happly : resolveApply body = false) :
    runPipeline env body w =
      (⟨200, .preview (jsOrNull hr.summary) (f :: fs)⟩, ccalls ++ [.openAI]) ∧
    ∀ c ∈ ccalls ++ [.openAI], c.isMutating = false := by
  have hcc := crawlPaths_calls w (resolvePaths body) []
  rw [hcrawl] at hcc
  simp only [] at hcc
  refine ⟨?_, ?_⟩
  · simp [runPipeline, h1, h2, h3, h4, hcrawl, hne, hopenai, hfiles, happly]
  · intro c hmem
    rcases List.mem_append.mp hmem with hc | hc
    · obtain ⟨p, hp⟩ := hcc c hc
      rw [hp]
      rfl
    · simp at hc
      rw [hc]
      rfl

/-- Witness for C1 at a world with one collected file and a one-file
model reply. -/
theorem pipeline_preview_no_mutation_witness :
    runPipeline ⟨some "t", some "k", some "o", some "r", none⟩
        ⟨some ["src"], none, none, none, none, none⟩
        ⟨fun _ => .single (some ⟨2, some "aGk="⟩),
          .parsed ⟨some "s", some [⟨"a.txt", "new", none⟩]⟩,
          .error (500, "x"), .error (500, "x"),
          fun _ => .error (404, "x"), fun _ => .error (500, "x"),
          .error (500, "x"), 0⟩ =
      (⟨200, .preview (some "s") [⟨"a.txt", "new", none⟩]⟩,
        [.getContents "src", .getContents "src", .openAI]) ∧
    ∀ c ∈ [Call.getContents "src", Call.getContents "src", Call.openAI],
      c.isMutating = false := by
  have h := pipeline_preview_no_mutation
    ⟨some "t", some "k", some "o", some "r", none⟩
    ⟨some ["src"], none, none, none, none, none⟩
    ⟨fun _ => .single (some ⟨2, some "aGk="⟩),
      .parsed ⟨some "s", some [⟨"a.txt", "new", none⟩]⟩,
      .error (500, "x"), .error (500, "x"),
      fun _ => .error (404, "x"), fun _ => .error (500, "x"),
      .error (500, "x"), 0⟩
    [⟨"src", "hi"⟩] [.getContents "src", .getContents "src"]
    ⟨some "s", some [⟨"a.txt", "new", none⟩]⟩ ⟨"a.txt", "new", none⟩ []
    rfl rfl rfl rfl (by rfl) rfl rfl rfl rfl
  exact h

/-- C4: when the model reply is not parseable JSON, or parses without a
usable files array, or with an empty files array, the pipeline aborts
with a 500 error response and no mutating remote call is ever issued. -/
theorem pipeline_model_reply_aborts (env : Env) (body : Body) (w : World)
    (collected : List CollectedFile) (ccalls : List Call)
    (h1 : strFalsy env.GITHUB_TOKEN = false)
    (h2 : strFalsy env.OPENAI_API_KEY = false)
    (h3 : (strFalsy (resolveOwner env body) || strFalsy (resolveRepo env body)) = false)
    (h4 : (resolvePaths body).isEmpty = false)
    (hcrawl : crawlPaths w (resolvePaths body) [] = (.ok collected, ccalls))
    (hne : collected.isEmpty = false) :
    (w.openai = .parseError →
      runPipeline env body w = (⟨500, .errorResp jsonSyntaxErrorMsg⟩, ccalls ++ [.openAI])) ∧
    (∀ hr, w.openai = .parsed hr → hr.files = none →
      runPipeline env body w =
        (⟨500, .errorResp "Harmonizer returned no files"⟩, ccalls ++ [.openAI])) ∧
    (∀ hr, w.openai = .parsed hr → hr.files = some [] →
      runPipeline env body w =
        (⟨500, .errorResp "Harmonizer returned no files"⟩, ccalls ++ [.openAI])) ∧
    ∀ c ∈ ccalls ++ [.openAI], c.isMutating = false := by
  have hcc := crawlPaths_calls w (resolvePaths body) []
  rw [hcrawl] at hcc
  simp only [] at hcc
  refine ⟨?_, ?_, ?_, ?_⟩
  · intro hopenai
    simp [runPipeline, h1, h2, h3, h4, hcrawl, hne, hopenai]
  · intro hr hopenai hfiles
    simp [runPipeline, h1, h2, h3, h4, hcrawl, hne, hopenai, hfiles]
  · intro hr hopenai hfiles
    simp [runPipeline, h1, h2, h3, h4, hcrawl, hne, hopenai, hfiles]
  · intro c hmem
    rcases List.mem_append.mp hmem with hc | hc
    · obtain ⟨p, hp⟩ := hcc c hc
      rw [hp]
      rfl
    · simp at hc
      rw [hc]
      rfl

/-- Witness for C4 at a world whose model reply is unparseable. -/
theorem pipeline_model_reply_aborts_witness :
    runPipeline ⟨some "t", some "k", some "o", some "r", none⟩
        ⟨some ["src"], some true, none, none, none, none⟩
        ⟨fun _ => .single (some ⟨2, some "aGk="⟩), .parseError,
          .error (500, "x"), .error (500, "x"),
          fun _ => .error (404, "x"), fun _ => .error (500, "x"),
          .error (500, "x"), 0⟩ =
      (⟨500, .errorResp jsonSyntaxErrorMsg⟩,
        [.getContents "src", .getContents "src", .openAI]) :=
  (pipeline_model_reply_aborts ⟨some "t", some "k", some "o", some "r", none⟩
    ⟨some ["src"], some true, none, none, none, none⟩
    ⟨fun _ => .single (some ⟨2, some "aGk="⟩), .parseError,
      .error (500, "x"), .error (500, "x"),
      fun _ => .error (404, "x"), fun _ => .error (500, "x"),
      .error (500, "x"), 0⟩
    [⟨"src", "hi"⟩] [.getContents "src", .getContents "src"]
    rfl rfl rfl rfl (by rfl) rfl).1 rfl

/-- C2: for a proposed change processed in apply mode, a successful
probe yielding a (non-empty) blob sha makes the write payload carry that
sha and the recorded outcome status be updated, while a probe that fails
or yields no sha makes the payload omit the sha field and the recorded
status be created; in both cases the loop then continues with the
remaining changes. -/
theorem applier_create_vs_update (w : World) (branch : String) (f : ProposedChange)
    (rest : List ProposedChange) :
    (∀ sha c, w.probe f.path = .ok (some sha) → sha.isEmpty = false →
      w.putFile f.path = .ok c →
      commitFiles w branch (f :: rest) =
        ((commitFiles w branch rest).1.map (fun rs => ⟨f.path, "updated", c⟩ :: rs),
          Call.getFileOnBranch f.path branch ::
            Call.putFile f.path
              ⟨s!"ASA Harmonizer Update: {f.path}", base64encode f.content,
                branch, some sha⟩ ::
            (commitFiles w branch rest).2)) ∧
    (∀ c, (w.probe f.path = .ok none ∨ ∃ e, w.probe f.path = .error e) →
      w.putFile f.path = .ok c →
      commitFiles w branch (f :: rest) =
        ((commitFiles w branch rest).1.map (fun rs => ⟨f.path, "created", c⟩ :: rs),
          Call.getFileOnBranch f.path branch ::
            Call.putFile f.path
              ⟨s!"ASA Harmonizer Update: {f.path}", base64encode f.content,
                branch, none⟩ ::
            (commitFiles w branch rest).2)) := by
  constructor
  · intro sha c hprobe hsha hput
    have htr : shaTruthy (probedSha w f.path) = true := by
      simp [probedSha, hprobe, shaTruthy, hsha]
    simp only [commitFiles, probedSha, hprobe, hput]
    rcases hrest : commitFiles w branch rest with ⟨r1, cs1⟩
    simp only [probedSha, hprobe] at htr
    simp [htr]
  · intro c hprobe hput
    have htr : shaTruthy (probedSha w f.path) = false := by
      rcases hprobe with hp | ⟨e, hp⟩ <;> simp [probedSha, hp, shaTruthy]
    rcases hprobe with hp | ⟨e, hp⟩ <;>
      · simp only [commitFiles, probedSha, hp, hput]
        rcases hrest : commitFiles w branch rest with ⟨r1, cs1⟩
        simp only [probedSha, hp] at htr
        simp [htr]

/-- Witness for C2: one world where the probe finds a blob sha (status
updated, sha attached) and one where the probe fails (status created,
no sha). -/
theorem applier_create_vs_update_witness :
    commitFiles
        ⟨fun _ => .failed, .parseError, .error (500, "x"), .error (500, "x"),
          fun _ => .ok (some "sha1"), fun _ => .ok (some "c1"),
          .error (500, "x"), 0⟩ "b" [⟨"a", "new", none⟩] =
      (.ok [⟨"a", "updated", some "c1"⟩],
        [Call.getFileOnBranch "a" "b",
          Call.putFile "a" ⟨"ASA Harmonizer Update: a", base64encode "new", "b",
            some "sha1"⟩]) ∧
    commitFiles
        ⟨fun _ => .failed, .parseError, .error (500, "x"), .error (500, "x"),
          fun _ => .error (404, "missing"), fun _ => .ok (some "c2"),
          .error (500, "x"), 0⟩ "b" [⟨"a", "new", none⟩] =
      (.ok [⟨"a", "created", some "c2"⟩],
        [Call.getFileOnBranch "a" "b",
          Call.putFile "a" ⟨"ASA Harmonizer Update: a", base64encode "new", "b",
            none⟩]) := by
  constructor
  · have h := (applier_create_vs_update
      ⟨fun _ => .failed, .parseError, .error (500, "x"), .error (500, "x"),
        fun _ => .ok (some "sha1"), fun _ => .ok (some "c1"),
        .error (500, "x"), 0⟩ "b" ⟨"a", "new", none⟩ []).1
      "sha1" (some "c1") rfl rfl rfl
    rw [h]
    rfl
  · have h := (applier_create_vs_update
      ⟨fun _ => .failed, .parseError, .error (500, "x"), .error (500, "x"),
        fun _ => .error (404, "missing"), fun _ => .ok (some "c2"),
        .error (500, "x"), 0⟩ "b" ⟨"a", "new", none⟩ []).2
      (some "c2") (Or.inr ⟨(404, "missing"), rfl⟩) rfl
    rw [h]
    rfl

/-- The apply loop issues only existence probes on the new branch and
file writes. -/
theorem commitFiles_calls (w : World) (branch : String) (files : List ProposedChange) :
    ∀ c ∈ (commitFiles w branch files).2,
      (∃ p, c = .getFileOnBranch p branch) ∨ ∃ p pl, c = .putFile p pl := by
  match files with
  | [] => simp [commitFiles]
  | f :: rest =>
    simp only [commitFiles]
    cases hput : w.putFile f.path with
    | error e =>
      rcases e with ⟨st, t⟩
      simp only [List.mem_cons]
      rintro c (rfl | hc)
      · exact Or.inl ⟨f.path, rfl⟩
      · simp at hc
        subst hc
        exact Or.inr ⟨f.path, _, rfl⟩
    | ok c0 =>
      have ih := commitFiles_calls w branch rest
      rcases hrest : commitFiles w branch rest with ⟨r1, cs1⟩
      rw [hrest] at ih
      simp only [] at ih
      simp only [List.mem_cons]
      rintro c (rfl | hc)
      · exact Or.inl ⟨f.path, rfl⟩
      · rcases hc with rfl | hc
        · exact Or.inr ⟨f.path, _, rfl⟩
        · exact ih c hc

/-- Reduction of a run that reaches the apply phase. -/
theorem runPipeline_apply_eq (env : Env) (body : Body) (w : World)
    (collected : List CollectedFile) (ccalls : List Call)
    (hr : HarmonizerResult) (f : ProposedChange) (fs : List ProposedChange)
    (h1 : strFalsy env.GITHUB_TOKEN = false)
    (h2 : strFalsy env.OPENAI_API_KEY = false)
    (h3 : (strFalsy (resolveOwner env body) || strFalsy (resolveRepo env body)) = false)
    (h4 : (resolvePaths body).isEmpty = false)
    (hcrawl : crawlPaths w (resolvePaths body) [] = (.ok collected, ccalls))
    (hne : collected.isEmpty = false)
    (hopenai : w.openai = .parsed hr)
    (hfiles : hr.files = some (f :: fs))
    (happly : resolveApply body = true) :
    runPipeline env body w =
      ((applyPhase w (resolveBaseBranch env body) (resolveNote body)
          hr.summary (f :: fs)).1,
        (ccalls ++ [Call.openAI]) ++
          (applyPhase w (resolveBaseBranch env body) (resolveNote body)
            hr.summary (f :: fs)).2) := by
  rcases ha : applyPhase w (resolveBaseBranch env body) (resolveNote body)
    hr.summary (f :: fs) with ⟨resp, acalls⟩
  simp [runPipeline, h1, h2, h3, h4, hcrawl, hne, hopenai, hfiles, happly, ha]

/-- C5: in an apply run the base-branch reference lookup comes first,
then the branch-create call, then the per-file probe and write calls,
then the pull-request-create call, and each later step is issued only
when every earlier one succeeded: a failed lookup ends the trace at the
lookup, a failed branch create ends it before any write, a failed write
ends it before the pull-request call, and on full success the
pull-request call is last. -/
theorem pipeline_apply_ordering (env : Env) (body : Body) (w : World)
    (collected : List CollectedFile) (ccalls : List Call)
    (hr : HarmonizerResult) (f : ProposedChange) (fs : List ProposedChange)
    (h1 : strFalsy env.GITHUB_TOKEN = false)
    (h2 : strFalsy env.OPENAI_API_KEY = false)
    (h3 : (strFalsy (resolveOwner env body) || strFalsy (resolveRepo env body)) = false)
    (h4 : (resolvePaths body).isEmpty = false)
    (hcrawl : crawlPaths w (resolvePaths body) [] = (.ok collected, ccalls))
    (hne : collected.isEmpty = false)
    (hopenai : w.openai = .parsed hr)
    (hfiles : hr.files = some (f :: fs))
    (happly : resolveApply body = true) :
    (∀ c ∈ ccalls ++ [Call.openAI], c.isMutating = false) ∧
    (∀ e, w.baseRef = .error e →
      (runPipeline env body w).2 =
        (ccalls ++ [Call.openAI]) ++ [.getRef (resolveBaseBranch env body)]) ∧
    (∀ sha e, w.baseRef = .ok sha → w.createRef = .error e →
      (runPipeline env body w).2 =
        (ccalls ++ [Call.openAI]) ++
          [.getRef (resolveBaseBranch env body),
            .createRef s!"asa-harmonizer-{w.now}" sha]) ∧
    (∀ sha u msg fcs, w.baseRef = .ok sha → w.createRef = .ok u →
      commitFiles w s!"asa-harmonizer-{w.now}" (f :: fs) = (.error msg, fcs) →
      (runPipeline env body w).2 =
        (ccalls ++ [Call.openAI]) ++
          ([.getRef (resolveBaseBranch env body),
            .createRef s!"asa-harmonizer-{w.now}" sha] ++ fcs)) ∧
    (∀ sha u rs fcs, w.baseRef = .ok sha → w.createRef = .ok u →
      commitFiles w s!"asa-harmonizer-{w.now}" (f :: fs) = (.ok rs, fcs) →
      (runPipeline env body w).2 =
        (ccalls ++ [Call.openAI]) ++
          ([.getRef (resolveBaseBranch env body),
            .createRef s!"asa-harmonizer-{w.now}" sha] ++
            (fcs ++ [.createPR s!"asa-harmonizer-{w.now}" (resolveBaseBranch env body)
              (jsOrStr hr.summary (resolveNote body))]))) ∧
    (∀ c ∈ (commitFiles w s!"asa-harmonizer-{w.now}" (f :: fs)).2,
      (∃ p, c = .getFileOnBranch p s!"asa-harmonizer-{w.now}") ∨
        ∃ p pl, c = .putFile p pl) := by
  have hred := runPipeline_apply_eq env body w collected ccalls hr f fs
    h1 h2 h3 h4 hcrawl hne hopenai hfiles happly
  have hcc := crawlPaths_calls w (resolvePaths body) []
  rw [hcrawl] at hcc
  simp only [] at hcc
  refine ⟨?_, ?_, ?_, ?_, ?_, ?_⟩
  · intro c hmem
    rcases List.mem_append.mp hmem with hc | hc
    · obtain ⟨p, hp⟩ := hcc c hc
      rw [hp]
      rfl
    · simp at hc
      rw [hc]
      rfl
  · intro e hbase
    rcases e with ⟨st, t⟩
    rw [hred]
    simp [applyPhase, hbase]
  · intro sha e hbase hcreate
    rcases e with ⟨st, t⟩
    rw [hred]
    simp [applyPhase, hbase, hcreate]
  · intro sha u msg fcs hbase hcreate hcommit
    rw [hred]
    simp [applyPhase, hbase, hcreate, hcommit]
  · intro sha u rs fcs hbase hcreate hcommit
    rw [hred]
    rcases hpr : w.createPR with ⟨st, t⟩ | ⟨url, num⟩ <;>
      simp [applyPhase, hbase, hcreate, hcommit, hpr]
  · exact commitFiles_calls w _ (f :: fs)

/-- Witness for C5 at a fully successful one-file apply run. -/
theorem pipeline_apply_ordering_witness :
    (runPipeline ⟨some "t", some "k", some "o", some "r", none⟩
        ⟨some ["src"], some true, none, none, none, none⟩
        ⟨fun _ => .single (some ⟨2, some "aGk="⟩),
          .parsed ⟨some "s", some [⟨"a.txt", "new", none⟩]⟩,
          .ok "base0", .ok (), fun _ => .ok none, fun _ => .ok (some "c1"),
          .ok ("url", 7), 5⟩).2 =
      ([Call.getContents "src", Call.getContents "src", Call.openAI]) ++
        ([.getRef "main", .createRef "asa-harmonizer-5" "base0"] ++
          ([.getFileOnBranch "a.txt" "asa-harmonizer-5",
            .putFile "a.txt" ⟨"ASA Harmonizer Update: a.txt", base64encode "new",
              "asa-harmonizer-5", none⟩] ++
            [.createPR "asa-harmonizer-5" "main" "s"])) := by
  have h := (pipeline_apply_ordering ⟨some "t", some "k", some "o", some "r", none⟩
    ⟨some ["src"], some true, none, none, none, none⟩
    ⟨fun _ => .single (some ⟨2, some "aGk="⟩),
      .parsed ⟨some "s", some [⟨"a.txt", "new", none⟩]⟩,
      .ok "base0", .ok (), fun _ => .ok none, fun _ => .ok (some "c1"),
      .ok ("url", 7), 5⟩
    [⟨"src", "hi"⟩] [.getContents "src", .getContents "src"]
    ⟨some "s", some [⟨"a.txt", "new", none⟩]⟩ ⟨"a.txt", "new", none⟩ []
    rfl rfl rfl rfl (by rfl) rfl rfl rfl rfl).2.2.2.2.1
    "base0" () [⟨"a.txt", "created", some "c1"⟩]
    [.getFileOnBranch "a.txt" "asa-harmonizer-5",
      .putFile "a.txt" ⟨"ASA Harmonizer Update: a.txt", base64encode "new",
        "asa-harmonizer-5", none⟩]
    rfl rfl (by rfl)
  exact h

/-- Counterexample to C9: a successful preview run hands onward a
ProposedChange whose path is empty — the model reply is parsed without
any per-change path validation, so the claimed non-empty-path invariant
fails on the code. -/
theorem proposed_change_empty_path_counterexample :
    ∃ pc : ProposedChange, pc.path = "" ∧
      runPipeline ⟨some "t", some "k", some "o", some "r", none⟩
          ⟨some ["src"], none, none, none, none, none⟩
          ⟨fun _ => .single (some ⟨2, some "aGk="⟩),
            .parsed ⟨none, some [⟨"", "x", none⟩]⟩,
            .error (500, "x"), .error (500, "x"),
            fun _ => .error (404, "x"), fun _ => .error (500, "x"),
            .error (500, "x"), 0⟩ =
        (⟨200, .preview none [pc]⟩,
          [.getContents "src", .getContents "src", .openAI]) :=
  ⟨⟨"", "x", none⟩, rfl, by rfl⟩

/-- C9 as amended: a run fails with the returned-no-files error whenever
zero proposed changes are parsed (files missing or empty), and parsed
changes are handed onward verbatim with no per-change validation — in
particular a change with an empty path is passed through. -/
theorem proposed_change_validation (env : Env) (body : Body) (w : World)
    (collected : List CollectedFile) (ccalls : List Call)
    (h1 : strFalsy env.GITHUB_TOKEN = false)
    (h2 : strFalsy env.OPENAI_API_KEY = false)
    (h3 : (strFalsy (resolveOwner env body) || strFalsy (resolveRepo env body)) = false)
    (h4 : (resolvePaths body).isEmpty = false)
    (hcrawl : crawlPaths w (resolvePaths body) [] = (.ok collected, ccalls))
    (hne : collected.isEmpty = false) :
    (∀ hr, w.openai = .parsed hr → (hr.files = none ∨ hr.files = some []) →
      runPipeline env body w =
        (⟨500, .errorResp "Harmonizer returned no files"⟩, ccalls ++ [.openAI])) ∧
    (∀ hr f fs, w.openai = .parsed hr → hr.files = some (f :: fs) →
      resolveApply body = false →
      runPipeline env body w =
        (⟨200, .preview (jsOrNull hr.summary) (f :: fs)⟩, ccalls ++ [.openAI])) := by
  constructor
  · rintro hr hopenai (hfiles | hfiles) <;>
      simp [runPipeline, h1, h2, h3, h4, hcrawl, hne, hopenai, hfiles]
  · intro hr f fs hopenai hfiles happly
    simp [runPipeline, h1, h2, h3, h4, hcrawl, hne, hopenai, hfiles, happly]

/-- Witness for the amended C9: an empty files array fails the run, and
a change with an empty path is previewed verbatim. -/
theorem proposed_change_validation_witness :
    runPipeline ⟨some "t", some "k", some "o", some "r", none⟩
        ⟨some ["src"], none, none, none, none, none⟩
        ⟨fun _ => .single (some ⟨2, some "aGk="⟩),
          .parsed ⟨none, some []⟩,
          .error (500, "x"), .error (500, "x"),
          fun _ => .error (404, "x"), fun _ => .error (500, "x"),
          .error (500, "x"), 0⟩ =
      (⟨500, .errorResp "Harmonizer returned no files"⟩,
        [.getContents "src", .getContents "src", .openAI]) ∧
    runPipeline ⟨some "t", some "k", some "o", some "r", none⟩
        ⟨some ["src"], none, none, none, none, none⟩
        ⟨fun _ => .single (some ⟨2, some "aGk="⟩),
          .parsed ⟨none, some [⟨"", "x", none⟩]⟩,
          .error (500, "x"), .error (500, "x"),
          fun _ => .error (404, "x"), fun _ => .error (500, "x"),
          .error (500, "x"), 0⟩ =
      (⟨200, .preview none [⟨"", "x", none⟩]⟩,
        [.getContents "src", .getContents "src", .openAI]) := by
  constructor
  · exact (proposed_change_validation ⟨some "t", some "k", some "o", some "r", none⟩
      ⟨some ["src"], none, none, none, none, none⟩
      ⟨fun _ => .single (some ⟨2, some "aGk="⟩),
        .parsed ⟨none, some []⟩,
        .error (500, "x"), .error (500, "x"),
        fun _ => .error (404, "x"), fun _ => .error (500, "x"),
        .error (500, "x"), 0⟩
      [⟨"src", "hi"⟩] [.getContents "src", .getContents "src"]
      rfl rfl rfl rfl (by rfl) rfl).1 ⟨none, some []⟩ rfl (Or.inr rfl)
  · exact (proposed_change_validation ⟨some "t", some "k", some "o", some "r", none⟩
      ⟨some ["src"], none, none, none, none, none⟩
      ⟨fun _ => .single (some ⟨2, some "aGk="⟩),
        .parsed ⟨none, some [⟨"", "x", none⟩]⟩,
        .error (500, "x"), .error (500, "x"),
        fun _ => .error (404, "x"), fun _ => .error (500, "x"),
        .error (500, "x"), 0⟩
      [⟨"src", "hi"⟩] [.getContents "src", .getContents "src"]
      rfl rfl rfl rfl (by rfl) rfl).2 ⟨none, some [⟨"", "x", none⟩]⟩
      ⟨"", "x", none⟩ [] rfl rfl rfl

/-- C10: the transport-encoding helpers are mutually inverse: for every
string (Lean strings are well-formed Unicode with no lone surrogates),
decoding the encoding returns exactly the original string, so content
written in apply mode decodes back to exactly the proposed content. -/
theorem base64_roundtrip (s : String) : base64decode (base64encode s) = some s := by
  unfold base64decode base64encode
  rw [show (String.mk (btoaBytes (utf8Bytes s))).data = btoaBytes (utf8Bytes s) from rfl]
  rw [atob_btoa _ (utf8Bytes_lt s)]
  simp only []
  rw [utf8DecodeBytes_utf8Bytes]
  simp only []
  exact codepointsToString_map s

end ASA
